import Mathlib

/-!
Verification of the room-state synchronization engine of `src/server.js`
(websocket-cache): the in-memory room registry, the `/room` / `/state`
text-command handler, and the periodic snapshot save/load.

Modelling choices (shallow embedding):

* JSON values are the inductive `Json`.  `JSON.parse` / `JSON.stringify`
  of the JavaScript runtime are modelled by the executable functions
  `Json.parse` and `Json.stringify` below.  Numbers are modelled as
  integers (the claims under verification never depend on non-integral
  numbers; non-integral numeric literals are simply outside the modelled
  well-formed payloads).
* A connection handle (`ws` object) is identified by a `Conn` (a `Nat`
  standing for its reference identity; JavaScript `client !== ws` is
  reference comparison).  The liveness capability
  `client.readyState === WebSocket.OPEN` is passed in as an environment
  function `isOpen : Conn → Bool`, fixed for the duration of one
  message-handler run (the handler is synchronous).
* The JavaScript object `rooms` is an association list with the usual
  object semantics: `roomId in rooms` is key lookup (`getKey`),
  `rooms[roomId] = v` replaces the binding in place or appends a new one
  (`setKey`).
* `data.toString().split(' ')` is modelled by `jsSplit`, and
  `lineSplit.slice(2).join(' ')` by `joinSpaces`, both faithful to the
  JavaScript semantics of `String.prototype.split`/`Array.prototype.join`
  with a single-space separator.
* Sends are collected as an output list `(target, frameText)` in the
  order the code issues them; the handler returns the new registry and
  that list.  The handler is a total function: the only exception the
  source can raise in the modelled region (`JSON.parse` failure) is
  caught by its `try`/`catch`, which we model by `Option`.
-/

/-- A JSON value, the opaque room state of the engine.  Mirrors the values
`JSON.parse` can produce in `src/server.js` (numbers restricted to
integers, see the header comment). -/
inductive Json where
  | null
  | bool (b : Bool)
  | num (n : Int)
  | str (s : String)
  | arr (xs : List Json)
  | obj (fields : List (String × Json))

/-- Escape of one character inside a JSON string literal, as
`JSON.stringify` performs it (quote, backslash and the common control
characters; other characters are emitted verbatim). -/
def escapeChar (c : Char) : List Char :=
  if c = '"' then ['\\', '"']
  else if c = '\\' then ['\\', '\\']
  else if c = '\n' then ['\\', 'n']
  else if c = '\t' then ['\\', 't']
  else if c = '\r' then ['\\', 'r']
  else [c]

/-- Escape a whole string body for `JSON.stringify`. -/
def escapeChars : List Char → List Char
  | [] => []
  | c :: cs => escapeChar c ++ escapeChars cs

mutual
/-- Model of `JSON.stringify` on a defined JSON value: compact output, no
added whitespace, exactly as the JavaScript builtin used at
`src/server.js` lines 96, 118 and 133. -/
def Json.stringify : Json → String
  | .null => "null"
  | .bool true => "true"
  | .bool false => "false"
  | .num n => toString n
  | .str s => String.mk ('"' :: escapeChars s.data ++ ['"'])
  | .arr xs => "[" ++ Json.stringifyItems xs ++ "]"
  | .obj fs => "\x7b" ++ Json.stringifyMembers fs ++ "\x7d"
/-- Comma-separated serialization of array elements. -/
def Json.stringifyItems : List Json → String
  | [] => ""
  | [x] => Json.stringify x
  | x :: y :: xs => Json.stringify x ++ "," ++ Json.stringifyItems (y :: xs)
/-- Comma-separated serialization of object members. -/
def Json.stringifyMembers : List (String × Json) → String
  | [] => ""
  | [(k, v)] => String.mk ('"' :: escapeChars k.data ++ ['"']) ++ ":" ++ Json.stringify v
  | (k, v) :: m :: ms =>
    String.mk ('"' :: escapeChars k.data ++ ['"']) ++ ":" ++ Json.stringify v ++ ","
      ++ Json.stringifyMembers (m :: ms)
end

/-- `'/state ' + JSON.stringify(state)` where `state` may be `undefined`
(`Option.none`): `JSON.stringify(undefined)` is the value `undefined`,
and JavaScript string concatenation coerces it to the text `undefined`
(src/server.js line 118). -/
def stringifyTop : Option Json → String
  | none => "undefined"
  | some j => Json.stringify j

/-- Skip JSON insignificant whitespace. -/
def skipWs : List Char → List Char
  | [] => []
  | c :: cs => if c = ' ' ∨ c = '\t' ∨ c = '\n' ∨ c = '\r' then skipWs cs else c :: cs

/-- Unescape of one escaped character inside a JSON string literal. -/
def escCharOf (e : Char) : Option Char :=
  if e = '"' ∨ e = '\\' ∨ e = '/' then some e
  else if e = 'n' then some '\n'
  else if e = 't' then some '\t'
  else if e = 'r' then some '\r'
  else if e = 'b' then some '\x08'
  else if e = 'f' then some '\x0c'
  else none

/-- Parse the body of a JSON string literal (after the opening quote), up
to and including the closing quote.  Fuel-indexed so that the definition
is structural and kernel-evaluable. -/
def parseStrChars (fuel : Nat) (cs : List Char) : Option (List Char × List Char) :=
  match fuel, cs with
  | 0, _ => none
  | _, [] => none
  | fuel + 1, c :: cs =>
    if c = '"' then some ([], cs)
    else if c = '\\' then
      match cs with
      | [] => none
      | e :: cs2 =>
        (escCharOf e).bind fun d =>
          (parseStrChars fuel cs2).map fun (t, rest) => (d :: t, rest)
    else (parseStrChars fuel cs).map fun (t, rest) => (c :: t, rest)

/-- Take the maximal leading run of decimal digits. -/
def takeDigits : List Char → List Char × List Char
  | [] => ([], [])
  | c :: cs =>
    if c.isDigit then
      let (d, r) := takeDigits cs
      (c :: d, r)
    else ([], c :: cs)

/-- Numeric value of a digit run. -/
def digitsVal (ds : List Char) : Nat :=
  ds.foldl (fun a c => a * 10 + (c.toNat - 48)) 0

/-- Parse a JSON natural-number literal (no leading zeros, as JSON
requires). -/
def parseNatTok (cs : List Char) : Option (Nat × List Char) :=
  match takeDigits cs with
  | ([], _) => none
  | (['0'], r) => some (0, r)
  | ('0' :: _ :: _, _) => none
  | (ds, r) => some (digitsVal ds, r)

/-- Parse a JSON integer literal with optional leading minus. -/
def parseNumTok (cs : List Char) : Option (Json × List Char) :=
  match cs with
  | '-' :: rest => (parseNatTok rest).map fun (n, r) => (.num (-(n : Int)), r)
  | _ => (parseNatTok cs).map fun (n, r) => (.num (n : Int), r)

mutual
/-- Recursive-descent JSON value parser (fuel-indexed for structural
recursion).  Models `JSON.parse`: a `none` result stands for the
`SyntaxError` the builtin throws. -/
def parseVal : Nat → List Char → Option (Json × List Char)
  | 0, _ => none
  | fuel + 1, cs0 =>
    let cs := skipWs cs0
    if ("null".data).isPrefixOf cs then some (.null, cs.drop 4)
    else if ("true".data).isPrefixOf cs then some (.bool true, cs.drop 4)
    else if ("false".data).isPrefixOf cs then some (.bool false, cs.drop 5)
    else
      match cs with
      | [] => none
      | c :: rest =>
        if c = '"' then
          (parseStrChars fuel rest).map fun (t, r) => (.str (String.mk t), r)
        else if c = '[' then
          match skipWs rest with
          | ']' :: r2 => some (.arr [], r2)
          | r1 => (parseItems fuel r1).map fun (vs, r) => (.arr vs, r)
        else if c = '\x7b' then
          match skipWs rest with
          | '\x7d' :: r2 => some (.obj [], r2)
          | r1 => (parseMembers fuel r1).map fun (fs, r) => (.obj fs, r)
        else parseNumTok cs
/-- Parse one or more comma-separated array elements up to `]`. -/
def parseItems : Nat → List Char → Option (List Json × List Char)
  | 0, _ => none
  | fuel + 1, cs =>
    (parseVal fuel cs).bind fun (v, r) =>
      match skipWs r with
      | ',' :: r2 => (parseItems fuel r2).map fun (vs, r3) => (v :: vs, r3)
      | ']' :: r2 => some ([v], r2)
      | _ => none
/-- Parse one or more comma-separated object members up to the closing
brace. -/
def parseMembers : Nat → List Char → Option (List (String × Json) × List Char)
  | 0, _ => none
  | fuel + 1, cs =>
    match skipWs cs with
    | '"' :: r0 =>
      (parseStrChars fuel r0).bind fun (k, r1) =>
        match skipWs r1 with
        | ':' :: r2 =>
          (parseVal fuel r2).bind fun (v, r3) =>
            match skipWs r3 with
            | ',' :: r4 => (parseMembers fuel r4).map fun (fs, r5) => ((String.mk k, v) :: fs, r5)
            | '\x7d' :: r4 => some ([(String.mk k, v)], r4)
            | _ => none
        | _ => none
    | _ => none
end

/-- Model of `JSON.parse` (src/server.js line 129 and the startup load at
line 85): parse one value, require only whitespace after it.  The fuel
`4 * (length + 1)` dominates the recursion depth, which consumes at
least one character every four recursive steps. -/
def Json.parse (s : String) : Option Json :=
  match parseVal (4 * (s.data.length + 1)) s.data with
  | some (v, rest) => if skipWs rest = [] then some v else none
  | none => none

/-- A connection handle; the number is the object's reference identity
(JavaScript `client !== ws` compares references). -/
abbrev Conn := Nat

/-- A registry entry: `{ state: ..., clients: [...] }` of src/server.js
lines 87 and 120.  `state : Option Json` with `none` standing for the
JavaScript value `undefined` (state never written). -/
structure Room where
  state : Option Json
  clients : List Conn

/-- The global `rooms` object (src/server.js line 81), as an association
list with JavaScript-object key semantics (unique keys, insertion
order). -/
abbrev Rooms := List (String × Room)

/-- Key lookup, i.e. `roomId in rooms` / `rooms[roomId]`. -/
def getKey : Rooms → String → Option Room
  | [], _ => none
  | (k2, v) :: rest, k => if k2 = k then some v else getKey rest k

/-- Property write `rooms[roomId] = v`: replace the existing binding in
place, or append a new one. -/
def setKey : Rooms → String → Room → Rooms
  | [], k, v => [(k, v)]
  | (k2, v2) :: rest, k, v => if k2 = k then (k, v) :: rest else (k2, v2) :: setKey rest k v

/-- `String.prototype.split(' ')`(single-space separator, JavaScript
semantics: `""` splits to `[""]`, adjacent separators produce empty
tokens). -/
def splitCharsOnSpace : List Char → List (List Char)
  | [] => [[]]
  | c :: cs =>
    if c = ' ' then [] :: splitCharsOnSpace cs
    else
      match splitCharsOnSpace cs with
      | [] => [[c]]
      | t :: ts => (c :: t) :: ts

/-- `data.toString().split(' ')` of src/server.js line 110. -/
def jsSplit (s : String) : List String :=
  (splitCharsOnSpace s.data).map String.mk

/-- `Array.prototype.join(' ')` at the character level. -/
def joinChars : List (List Char) → List Char
  | [] => []
  | [t] => t
  | t :: u :: ts => t ++ ' ' :: joinChars (u :: ts)

/-- `lineSplit.slice(2).join(' ')` of src/server.js line 129 (applied to
the already-sliced list). -/
def joinSpaces (l : List String) : String :=
  String.mk (joinChars (l.map String.data))

/-- The message handler of src/server.js lines 109-140, applied to the
already-split frame `lineSplit`.  Returns the new registry and the list
of `(target, text)` sends issued, in order.

* `["/room", authToken, roomId]` (line 112: first token `/room` and
  exactly 3 tokens): token mismatch returns silently (line 114);
  an existing room gets the sender pushed onto `clients` and the sender
  is sent `'/state ' + JSON.stringify(state)` (lines 117-118); an
  unknown room is created as `{ state: undefined, clients: [ws] }`
  (line 120) with no send.
* `"/state" :: roomId :: rest` with `rest` nonempty (line 125: first
  token `/state` and more than 2 tokens): unknown room returns silently
  (line 127); then `JSON.parse` of the rejoined payload — a parse error
  is caught (lines 136-138) before any mutation, so registry and sends
  are unchanged; on success the room's `state` is replaced and every
  client of the room other than the sender whose connection is open is
  sent `'/state ' + JSON.stringify(state)` (lines 130-135).
* Anything else falls through with no effect.

The `WebSocket.OPEN` readiness test of line 132 is modelled by the
environment predicate `isOpen` (see the header comment). -/
def handleTokens (token : String) (isOpen : Conn → Bool) (ws : Conn)
    (rooms : Rooms) : List String → Rooms × List (Conn × String)
  | ["/room", authToken, roomId] =>
    if authToken ≠ token then (rooms, [])
    else
      match getKey rooms roomId with
      | some room =>
        (setKey rooms roomId { room with clients := room.clients ++ [ws] },
         [(ws, "/state " ++ stringifyTop room.state)])
      | none => (setKey rooms roomId { state := none, clients := [ws] }, [])
  | "/state" :: roomId :: p :: ps =>
    match getKey rooms roomId with
    | none => (rooms, [])
    | some room =>
      match Json.parse (joinSpaces (p :: ps)) with
      | none => (rooms, [])
      | some state =>
        (setKey rooms roomId { room with state := some state },
         (room.clients.filter fun c => c != ws && isOpen c).map
           fun c => (c, "/state " ++ Json.stringify state))
  | _ => (rooms, [])

/-- One run of the `ws.on('message')` handler on the raw frame text. -/
def handleMessage (token : String) (isOpen : Conn → Bool) (ws : Conn)
    (rooms : Rooms) (data : String) : Rooms × List (Conn × String) :=
  handleTokens token isOpen ws rooms (jsSplit data)

/-- The mapping `saveStateToDisk` passes to `JSON.stringify`
(src/server.js lines 96-98): each room id paired with `value.state`,
which may be the JavaScript value `undefined`. -/
def snapshotEntries (rooms : Rooms) : List (String × Option Json) :=
  rooms.map fun kv => (kv.1, kv.2.state)

/-- The member list of the JSON object actually written to `db.json`:
`JSON.stringify` omits every object property whose value is `undefined`
(ECMA-262 behaviour of the builtin), so exactly the rooms with a defined
state appear.  The file content is `Json.stringify (Json.obj
(writtenSnapshot rooms))`; since the builtins `JSON.parse` and
`JSON.stringify` invert each other and `fs` reads back what was written,
a fresh load receives exactly these members, so the save/load pipeline is
modelled at the value level. -/
def writtenSnapshot (rooms : Rooms) : List (String × Json) :=
  (snapshotEntries rooms).filterMap fun kv => kv.2.map fun s => (kv.1, s)

/-- The startup load of src/server.js lines 84-89:
`Object.entries(JSON.parse(file)).map(([key, value]) => [key, { state:
value, clients: [] }])` applied to the members of the parsed snapshot
object. -/
def loadRooms (entries : List (String × Json)) : Rooms :=
  entries.map fun kv => (kv.1, { state := some kv.2, clients := [] })

/-! ### Helper lemmas: split/join and registry key access -/

theorem mk_data_eq (s : String) : String.mk s.data = s := rfl

theorem splitCharsOnSpace_ne_nil (cs : List Char) : splitCharsOnSpace cs ≠ [] := by
  induction cs with
  | nil => simp [splitCharsOnSpace]
  | cons c cs ih =>
    simp only [splitCharsOnSpace]
    split
    · simp
    · split
      · simp
      · simp

theorem splitCharsOnSpace_append (a b : List Char) (h : ' ' ∉ a) :
    splitCharsOnSpace (a ++ ' ' :: b) = a :: splitCharsOnSpace b := by
  induction a with
  | nil => simp [splitCharsOnSpace]
  | cons c cs ih =>
    simp only [List.mem_cons, not_or] at h
    have hc : c ≠ ' ' := fun hh => h.1 hh.symm
    simp only [List.cons_append, splitCharsOnSpace, if_neg hc]
    rw [List.append_eq, ih h.2]

theorem splitCharsOnSpace_no_space (cs : List Char) (h : ' ' ∉ cs) :
    splitCharsOnSpace cs = [cs] := by
  induction cs with
  | nil => simp [splitCharsOnSpace]
  | cons c cs ih =>
    simp only [List.mem_cons, not_or] at h
    have hc : c ≠ ' ' := fun hh => h.1 hh.symm
    simp only [splitCharsOnSpace, if_neg hc, ih h.2]

theorem joinChars_splitCharsOnSpace (cs : List Char) :
    joinChars (splitCharsOnSpace cs) = cs := by
  induction cs with
  | nil => simp [splitCharsOnSpace, joinChars]
  | cons c cs ih =>
    simp only [splitCharsOnSpace]
    split
    · rename_i hc
      obtain ⟨t, ts, hts⟩ := List.exists_cons_of_ne_nil (splitCharsOnSpace_ne_nil cs)
      rw [hts] at ih ⊢
      simp [joinChars, ← ih, hc]
    · rename_i hc
      split
      · rename_i hnil
        exact absurd hnil (splitCharsOnSpace_ne_nil cs)
      · rename_i t ts hts
        rw [hts] at ih
        cases ts with
        | nil => simp_all [joinChars]
        | cons u us => simp_all [joinChars]

theorem joinSpaces_jsSplit (p : String) : joinSpaces (jsSplit p) = p := by
  simp only [joinSpaces, jsSplit, List.map_map]
  have h : (String.data ∘ String.mk) = id := rfl
  rw [h, List.map_id, joinChars_splitCharsOnSpace]

theorem jsSplit_exists_cons (p : String) : ∃ q qs, jsSplit p = q :: qs := by
  obtain ⟨t, ts, hts⟩ := List.exists_cons_of_ne_nil (splitCharsOnSpace_ne_nil p.data)
  exact ⟨String.mk t, ts.map String.mk, by simp [jsSplit, hts]⟩

theorem jsSplit_state_frame (rid p : String) (hr : ' ' ∉ rid.data) :
    jsSplit ("/state " ++ rid ++ " " ++ p) = "/state" :: rid :: jsSplit p := by
  simp only [jsSplit, String.data_append]
  have e1 : "/state ".data = "/state".data ++ [' '] := rfl
  have e2 : " ".data = [' '] := rfl
  have e : "/state ".data ++ rid.data ++ " ".data ++ p.data
      = "/state".data ++ ' ' :: (rid.data ++ ' ' :: p.data) := by
    rw [e1, e2]; simp
  rw [e, splitCharsOnSpace_append _ _ (by decide), splitCharsOnSpace_append _ _ hr]
  simp [mk_data_eq]

theorem jsSplit_room_frame (tok rid : String) (ht : ' ' ∉ tok.data) (hr : ' ' ∉ rid.data) :
    jsSplit ("/room " ++ tok ++ " " ++ rid) = ["/room", tok, rid] := by
  simp only [jsSplit, String.data_append]
  have e1 : "/room ".data = "/room".data ++ [' '] := rfl
  have e2 : " ".data = [' '] := rfl
  have e : "/room ".data ++ tok.data ++ " ".data ++ rid.data
      = "/room".data ++ ' ' :: (tok.data ++ ' ' :: rid.data) := by
    rw [e1, e2]; simp
  rw [e, splitCharsOnSpace_append _ _ (by decide), splitCharsOnSpace_append _ _ ht,
    splitCharsOnSpace_no_space _ hr]
  simp [mk_data_eq]

theorem getKey_setKey_self (rooms : Rooms) (k : String) (v : Room) :
    getKey (setKey rooms k v) k = some v := by
  induction rooms with
  | nil => simp [getKey, setKey]
  | cons kv rest ih =>
    obtain ⟨k2, v2⟩ := kv
    simp only [setKey]
    split
    · simp [getKey]
    · rename_i hne
      simp [getKey, hne, ih]

theorem getKey_setKey_of_ne (rooms : Rooms) (k q : String) (v : Room) (h : q ≠ k) :
    getKey (setKey rooms k v) q = getKey rooms q := by
  have hkq : ¬k = q := fun hh => h hh.symm
  induction rooms with
  | nil => simp [getKey, setKey, hkq]
  | cons kv rest ih =>
    obtain ⟨k2, v2⟩ := kv
    simp only [setKey]
    split
    · rename_i he
      subst he
      simp [getKey, hkq]
    · simp only [getKey]
      split
      · rfl
      · exact ih

/-! ### Helper lemmas: the four branches of the message handler -/

theorem handleMessage_room_existing (token : String) (isOpen : Conn → Bool) (ws : Conn)
    (rooms : Rooms) (rid : String) (room : Room)
    (ht : ' ' ∉ token.data) (hr : ' ' ∉ rid.data)
    (hroom : getKey rooms rid = some room) :
    handleMessage token isOpen ws rooms ("/room " ++ token ++ " " ++ rid)
      = (setKey rooms rid { room with clients := room.clients ++ [ws] },
         [(ws, "/state " ++ stringifyTop room.state)]) := by
  unfold handleMessage
  rw [jsSplit_room_frame _ _ ht hr]
  simp [handleTokens, hroom]

theorem handleMessage_room_new (token : String) (isOpen : Conn → Bool) (ws : Conn)
    (rooms : Rooms) (rid : String)
    (ht : ' ' ∉ token.data) (hr : ' ' ∉ rid.data)
    (hroom : getKey rooms rid = none) :
    handleMessage token isOpen ws rooms ("/room " ++ token ++ " " ++ rid)
      = (setKey rooms rid { state := none, clients := [ws] }, []) := by
  unfold handleMessage
  rw [jsSplit_room_frame _ _ ht hr]
  simp [handleTokens, hroom]

theorem handleMessage_room_badtoken (token : String) (isOpen : Conn → Bool) (ws : Conn)
    (rooms : Rooms) (authTok rid : String)
    (ht : ' ' ∉ authTok.data) (hr : ' ' ∉ rid.data)
    (hne : authTok ≠ token) :
    handleMessage token isOpen ws rooms ("/room " ++ authTok ++ " " ++ rid)
      = (rooms, []) := by
  unfold handleMessage
  rw [jsSplit_room_frame _ _ ht hr]
  simp [handleTokens, hne]

theorem handleMessage_state_update (token : String) (isOpen : Conn → Bool) (ws : Conn)
    (rooms : Rooms) (rid P : String) (room : Room) (v : Json)
    (hr : ' ' ∉ rid.data)
    (hroom : getKey rooms rid = some room)
    (hP : Json.parse P = some v) :
    handleMessage token isOpen ws rooms ("/state " ++ rid ++ " " ++ P)
      = (setKey rooms rid { room with state := some v },
         (room.clients.filter fun c => c != ws && isOpen c).map
           fun c => (c, "/state " ++ Json.stringify v)) := by
  unfold handleMessage
  rw [jsSplit_state_frame _ _ hr]
  obtain ⟨q, qs, hq⟩ := jsSplit_exists_cons P
  rw [hq]
  have hjoin : joinSpaces (q :: qs) = P := by
    rw [← hq]; exact joinSpaces_jsSplit P
  simp [handleTokens, hroom, hjoin, hP]

theorem handleMessage_state_noroom (token : String) (isOpen : Conn → Bool) (ws : Conn)
    (rooms : Rooms) (rid P : String)
    (hr : ' ' ∉ rid.data)
    (hroom : getKey rooms rid = none) :
    handleMessage token isOpen ws rooms ("/state " ++ rid ++ " " ++ P)
      = (rooms, []) := by
  unfold handleMessage
  rw [jsSplit_state_frame _ _ hr]
  obtain ⟨q, qs, hq⟩ := jsSplit_exists_cons P
  rw [hq]
  simp [handleTokens, hroom]

theorem handleMessage_state_badpayload (token : String) (isOpen : Conn → Bool) (ws : Conn)
    (rooms : Rooms) (rid P : String) (room : Room)
    (hr : ' ' ∉ rid.data)
    (hroom : getKey rooms rid = some room)
    (hP : Json.parse P = none) :
    handleMessage token isOpen ws rooms ("/state " ++ rid ++ " " ++ P)
      = (rooms, []) := by
  unfold handleMessage
  rw [jsSplit_state_frame _ _ hr]
  obtain ⟨q, qs, hq⟩ := jsSplit_exists_cons P
  rw [hq]
  have hjoin : joinSpaces (q :: qs) = P := by
    rw [← hq]; exact joinSpaces_jsSplit P
  simp [handleTokens, hroom, hjoin, hP]

/-! ### Claim theorems -/

/-- C1: a well-formed UPDATE `/state rid P` on an existing room whose
members are `[A, B, C]` with sender `A` replaces the stored state with
`decode(P)`, and exactly `B` and `C` — only those whose connection is
open — each receive exactly one frame `/state canonical(P)`, where
`canonical(P)` is the re-serialization of the decoded value; `A`
receives nothing. -/
theorem update_existing_room_fanout
    (token : String) (isOpen : Conn → Bool) (A B C : Conn) (rooms : Rooms)
    (rid P : String) (room : Room) (v : Json)
    (hr : ' ' ∉ rid.data)
    (hroom : getKey rooms rid = some room)
    (hmem : room.clients = [A, B, C])
    (hAB : A ≠ B) (hAC : A ≠ C) (hBC : B ≠ C)
    (hP : Json.parse P = some v) :
    handleMessage token isOpen A rooms ("/state " ++ rid ++ " " ++ P)
      = (setKey rooms rid { room with state := some v },
         (if isOpen B then [(B, "/state " ++ Json.stringify v)] else [])
           ++ (if isOpen C then [(C, "/state " ++ Json.stringify v)] else []))
    ∧ getKey (handleMessage token isOpen A rooms ("/state " ++ rid ++ " " ++ P)).1 rid
        = some { state := some v, clients := room.clients } := by
  have h := handleMessage_state_update token isOpen A rooms rid P room v hr hroom hP
  constructor
  · rw [h, hmem]
    have hBA : (B != A) = true := bne_iff_ne.mpr (Ne.symm hAB)
    have hCA : (C != A) = true := bne_iff_ne.mpr (Ne.symm hAC)
    cases hB : isOpen B <;> cases hC : isOpen C <;>
      simp [List.filter, hB, hC, hBA, hCA, bne_self_eq_false]
  · rw [h]
    simp [getKey_setKey_self]

/-- Witness for C1 at a concrete input: room `"r"` with members
`[0, 1, 2]`, sender `0`, all connections open, payload `{"x":1}`. -/
theorem update_existing_room_fanout_witness :
    handleMessage "t" (fun _ => true) 0 [("r", { state := none, clients := [0, 1, 2] })]
        ("/state " ++ "r" ++ " " ++ "\x7b\"x\":1\x7d")
      = ([("r", { state := some (Json.obj [("x", Json.num 1)]), clients := [0, 1, 2] })],
         [(1, "/state \x7b\"x\":1\x7d"), (2, "/state \x7b\"x\":1\x7d")]) := by
  have h := (update_existing_room_fanout "t" (fun _ => true) 0 1 2
    [("r", { state := none, clients := [0, 1, 2] })] "r" "\x7b\"x\":1\x7d"
    { state := none, clients := [0, 1, 2] } (Json.obj [("x", Json.num 1)])
    (by decide) rfl rfl (by decide) (by decide) (by decide) rfl).1
  exact h.trans (by rfl)

/-- C3: a JOIN with the correct token on an existing room adds the
joining connection to the room's members and sends it exactly one frame
`/state <serialized state>`; when the state is unset the frame is the
literal text `/state undefined`. -/
theorem join_existing_room_state_echo
    (token rid : String) (isOpen : Conn → Bool) (ws : Conn) (rooms : Rooms) (room : Room)
    (ht : ' ' ∉ token.data) (hr : ' ' ∉ rid.data)
    (hroom : getKey rooms rid = some room) :
    handleMessage token isOpen ws rooms ("/room " ++ token ++ " " ++ rid)
      = (setKey rooms rid { room with clients := room.clients ++ [ws] },
         [(ws, "/state " ++ stringifyTop room.state)])
    ∧ getKey (handleMessage token isOpen ws rooms ("/room " ++ token ++ " " ++ rid)).1 rid
        = some { room with clients := room.clients ++ [ws] }
    ∧ (room.state = none →
        (handleMessage token isOpen ws rooms ("/room " ++ token ++ " " ++ rid)).2
          = [(ws, "/state undefined")]) := by
  have h := handleMessage_room_existing token isOpen ws rooms rid room ht hr hroom
  refine ⟨h, ?_, ?_⟩
  · rw [h]
    exact getKey_setKey_self rooms rid _
  · intro hs
    rw [h, hs]
    rfl

/-- Witness for C3 at a concrete input: room `"r"` exists with unset
state; joiner `4` is appended and receives `/state undefined`. -/
theorem join_existing_room_state_echo_witness :
    handleMessage "abc" (fun _ => true) 4 [("r", { state := none, clients := [9] })]
        ("/room " ++ "abc" ++ " " ++ "r")
      = ([("r", { state := none, clients := [9, 4] })], [(4, "/state undefined")]) := by
  have h := (join_existing_room_state_echo "abc" "r" (fun _ => true) 4
    [("r", { state := none, clients := [9] })] { state := none, clients := [9] }
    (by decide) (by decide) rfl).1
  exact h.trans (by rfl)

/-- C4: a JOIN with the correct token on an unknown room id creates the
room with unset state and members exactly the joining connection, and no
frame is sent to anyone. -/
theorem join_unknown_room_creates
    (token rid : String) (isOpen : Conn → Bool) (ws : Conn) (rooms : Rooms)
    (ht : ' ' ∉ token.data) (hr : ' ' ∉ rid.data)
    (hroom : getKey rooms rid = none) :
    handleMessage token isOpen ws rooms ("/room " ++ token ++ " " ++ rid)
      = (setKey rooms rid { state := none, clients := [ws] }, [])
    ∧ getKey (handleMessage token isOpen ws rooms ("/room " ++ token ++ " " ++ rid)).1 rid
        = some { state := none, clients := [ws] } := by
  have h := handleMessage_room_new token isOpen ws rooms rid ht hr hroom
  refine ⟨h, ?_⟩
  rw [h]
  exact getKey_setKey_self rooms rid _

/-- Witness for C4 at a concrete input: empty registry, `/room abc r1`
creates room `"r1"` with members `[3]` and sends nothing. -/
theorem join_unknown_room_creates_witness :
    handleMessage "abc" (fun _ => true) 3 [] ("/room " ++ "abc" ++ " " ++ "r1")
      = ([("r1", { state := none, clients := [3] })], []) := by
  have h := (join_unknown_room_creates "abc" "r1" (fun _ => true) 3 []
    (by decide) (by decide) rfl).1
  exact h.trans (by rfl)

/-- C5: a JOIN whose token differs from the shared token (exact,
case-sensitive string comparison) leaves the registry completely
unchanged and sends nothing to anyone. -/
theorem join_wrong_token_noop
    (token authTok rid : String) (isOpen : Conn → Bool) (ws : Conn) (rooms : Rooms)
    (ht : ' ' ∉ authTok.data) (hr : ' ' ∉ rid.data)
    (hne : authTok ≠ token) :
    handleMessage token isOpen ws rooms ("/room " ++ authTok ++ " " ++ rid)
      = (rooms, []) :=
  handleMessage_room_badtoken token isOpen ws rooms authTok rid ht hr hne

/-- Witness for C5 at a concrete input: token `"ABC"` versus shared
token `"abc"` (case difference) is dropped with no effect. -/
theorem join_wrong_token_noop_witness :
    handleMessage "abc" (fun _ => true) 0 [("r", { state := none, clients := [] })]
        ("/room " ++ "ABC" ++ " " ++ "r")
      = ([("r", { state := none, clients := [] })], []) :=
  join_wrong_token_noop "abc" "ABC" "r" (fun _ => true) 0
    [("r", { state := none, clients := [] })] (by decide) (by decide) (by decide)

/-- C6: an UPDATE that fails — unknown room id, or payload that does not
decode — leaves the registry completely unchanged and sends nothing.
The decode failure is the `JSON.parse` exception, caught by the
handler's `try`/`catch` before any mutation; the handler is a total
function, so no failure crashes the process. -/
theorem update_failure_noop
    (token : String) (isOpen : Conn → Bool) (ws : Conn) (rooms : Rooms)
    (rid P : String) (hr : ' ' ∉ rid.data)
    (h : getKey rooms rid = none ∨ Json.parse P = none) :
    handleMessage token isOpen ws rooms ("/state " ++ rid ++ " " ++ P)
      = (rooms, []) := by
  rcases h with h | h
  · exact handleMessage_state_noroom token isOpen ws rooms rid P hr h
  · cases hg : getKey rooms rid with
    | none => exact handleMessage_state_noroom token isOpen ws rooms rid P hr hg
    | some room => exact handleMessage_state_badpayload token isOpen ws rooms rid P room hr hg h

/-- Witness for C6 at a concrete input: room `"r"` exists but the
payload `{` is malformed; nothing changes and nothing is sent. -/
theorem update_failure_noop_witness :
    handleMessage "t" (fun _ => true) 0 [("r", { state := none, clients := [1] })]
        ("/state " ++ "r" ++ " " ++ "\x7b")
      = ([("r", { state := none, clients := [1] })], []) :=
  update_failure_noop "t" (fun _ => true) 0 [("r", { state := none, clients := [1] })]
    "r" "\x7b" (by decide) (Or.inr rfl)

/-- C8: membership is never required to post an update — a well-formed
UPDATE from a connection that is not a member of the room succeeds
exactly as from a member: the state is replaced and the fan-out reaches
every open member (the sender-exclusion test is vacuous). -/
theorem update_without_membership
    (token : String) (isOpen : Conn → Bool) (ws : Conn) (rooms : Rooms)
    (rid P : String) (room : Room) (v : Json)
    (hr : ' ' ∉ rid.data)
    (hroom : getKey rooms rid = some room)
    (hws : ws ∉ room.clients)
    (hP : Json.parse P = some v) :
    handleMessage token isOpen ws rooms ("/state " ++ rid ++ " " ++ P)
      = (setKey rooms rid { room with state := some v },
         (room.clients.filter fun c => isOpen c).map
           fun c => (c, "/state " ++ Json.stringify v)) := by
  have h := handleMessage_state_update token isOpen ws rooms rid P room v hr hroom hP
  rw [h]
  have hfil : room.clients.filter (fun c => c != ws && isOpen c)
      = room.clients.filter (fun c => isOpen c) := by
    apply List.filter_congr
    intro c hc
    have hne : (c != ws) = true := by
      simp only [bne_iff_ne, ne_eq]
      intro he
      exact hws (he ▸ hc)
    rw [hne, Bool.true_and]
  rw [hfil]

/-- Witness for C8 at a concrete input: sender `9` never joined room
`"r"` whose members are `[1, 2]`; the update still replaces the state
and reaches both open members. -/
theorem update_without_membership_witness :
    handleMessage "t" (fun _ => true) 9 [("r", { state := none, clients := [1, 2] })]
        ("/state " ++ "r" ++ " " ++ "3")
      = ([("r", { state := some (Json.num 3), clients := [1, 2] })],
         [(1, "/state 3"), (2, "/state 3")]) := by
  have h := update_without_membership "t" (fun _ => true) 9
    [("r", { state := none, clients := [1, 2] })] "r" "3"
    { state := none, clients := [1, 2] } (Json.num 3)
    (by decide) rfl (by decide) rfl
  exact h.trans (by rfl)

/-- Counterexample for C7 as stated: the frame `"/room abc "` splits into
exactly 3 tokens with first token `/room` and an empty roomId token, yet
it is NOT discarded — with shared token `"abc"` it creates a room whose
id is the empty string. -/
theorem room_frame_empty_roomid_cex :
    jsSplit "/room abc " = ["/room", "abc", ""]
    ∧ (handleMessage "abc" (fun _ => true) 0 [] "/room abc ").1
        = [("", { state := none, clients := [0] })] :=
  ⟨rfl, rfl⟩

/-- C7 (amended): a 3-token `/room` frame with an empty authToken is
discarded with no side effect whenever the shared token is non-empty —
but only because that is an ordinary token mismatch, not an emptiness
check.  An empty roomId token is not rejected at all: with the correct
token it is processed like any other id, in particular a room whose id
is the empty string is created when absent. -/
theorem room_frame_empty_fields
    (token rid : String) (isOpen : Conn → Bool) (ws : Conn) (rooms : Rooms) :
    (' ' ∉ rid.data → token ≠ "" →
      handleMessage token isOpen ws rooms ("/room " ++ "" ++ " " ++ rid) = (rooms, []))
    ∧ (' ' ∉ token.data → getKey rooms "" = none →
      handleMessage token isOpen ws rooms ("/room " ++ token ++ " " ++ "")
        = (setKey rooms "" { state := none, clients := [ws] }, [])) := by
  constructor
  · intro hr hne
    exact handleMessage_room_badtoken token isOpen ws rooms "" rid (by decide) hr
      (fun hh => hne hh.symm)
  · intro ht hroom
    exact handleMessage_room_new token isOpen ws rooms "" ht (by decide) hroom

/-- Witness for the amended C7 at a concrete input: shared token
`"abc"`, empty registry; an empty authToken is dropped, and an empty
roomId with the correct token creates the room with empty id. -/
theorem room_frame_empty_fields_witness :
    (' ' ∉ "r1".data → "abc" ≠ "" →
      handleMessage "abc" (fun _ => true) 0 [] ("/room " ++ "" ++ " " ++ "r1") = ([], []))
    ∧ (' ' ∉ "abc".data → getKey [] "" = none →
      handleMessage "abc" (fun _ => true) 0 [] ("/room " ++ "abc" ++ " " ++ "")
        = (setKey [] "" { state := none, clients := [0] }, [])) :=
  room_frame_empty_fields "abc" "r1" (fun _ => true) 0 []

/-- Monotonicity of one handler step, stated on the already-split frame:
every room present before is present after, with its member list
extended on the right at most. -/
theorem handleTokens_mono (token : String) (isOpen : Conn → Bool) (ws : Conn)
    (rooms : Rooms) (l : List String) (k : String) (r : Room)
    (h : getKey rooms k = some r) :
    ∃ r2, getKey (handleTokens token isOpen ws rooms l).1 k = some r2
      ∧ r.clients <+: r2.clients := by
  unfold handleTokens
  split
  · rename_i authToken roomId
    split
    · exact ⟨r, h, ⟨[], by simp⟩⟩
    · split
      · rename_i room heq
        by_cases hk : roomId = k
        · subst hk
          rw [heq] at h
          obtain rfl : room = r := Option.some.inj h
          exact ⟨{ room with clients := room.clients ++ [ws] },
            by simp [getKey_setKey_self], ⟨[ws], rfl⟩⟩
        · exact ⟨r,
            by rw [getKey_setKey_of_ne _ _ _ _ (fun hh => hk hh.symm)]; exact h,
            ⟨[], by simp⟩⟩
      · rename_i heq
        have hk : k ≠ roomId := by
          intro hh
          rw [hh] at h
          rw [h] at heq
          cases heq
        exact ⟨r,
          by rw [getKey_setKey_of_ne _ _ _ _ hk]; exact h,
          ⟨[], by simp⟩⟩
  · rename_i roomId p ps
    split
    · exact ⟨r, h, ⟨[], by simp⟩⟩
    · rename_i room heq
      split
      · exact ⟨r, h, ⟨[], by simp⟩⟩
      · rename_i v hv
        by_cases hk : roomId = k
        · subst hk
          rw [heq] at h
          obtain rfl : room = r := Option.some.inj h
          exact ⟨{ room with state := some v },
            by simp [getKey_setKey_self], ⟨[], by simp⟩⟩
        · exact ⟨r,
            by rw [getKey_setKey_of_ne _ _ _ _ (fun hh => hk hh.symm)]; exact h,
            ⟨[], by simp⟩⟩
  · exact ⟨r, h, ⟨[], by simp⟩⟩

/-- C9: processing any inbound frame never deletes a room and never
removes a member: every room bound before the step is still bound after
it, and its member list before is a prefix of its member list after
(members are only ever appended; closed connections are skipped at send
time, not pruned). -/
theorem handler_monotone_rooms_members
    (token : String) (isOpen : Conn → Bool) (ws : Conn) (rooms : Rooms) (data : String)
    (k : String) (r : Room) (h : getKey rooms k = some r) :
    ∃ r2, getKey (handleMessage token isOpen ws rooms data).1 k = some r2
      ∧ r.clients <+: r2.clients :=
  handleTokens_mono token isOpen ws rooms (jsSplit data) k r h

/-- Witness for C9 at a concrete input: a join of room `"r"` by
connection `7`; room `"r"` survives and its old member list `[5]` is a
prefix of the new one. -/
theorem handler_monotone_rooms_members_witness :
    ∃ r2, getKey (handleMessage "t" (fun _ => true) 7
        [("r", { state := none, clients := [5] })] "/room t r").1 "r" = some r2
      ∧ [5] <+: r2.clients :=
  handler_monotone_rooms_members "t" (fun _ => true) 7
    [("r", { state := none, clients := [5] })] "/room t r" "r"
    { state := none, clients := [5] } rfl

/-! ### Snapshot lemmas -/

theorem writtenSnapshot_cons (k : String) (v : Room) (rest : Rooms) :
    writtenSnapshot ((k, v) :: rest)
      = match v.state with
        | some s => (k, s) :: writtenSnapshot rest
        | none => writtenSnapshot rest := by
  cases hv : v.state <;> simp [writtenSnapshot, snapshotEntries, hv]

theorem mem_keys_writtenSnapshot (rest : Rooms) (k : String)
    (hm : k ∈ (writtenSnapshot rest).map Prod.fst) : k ∈ rest.map Prod.fst := by
  induction rest with
  | nil => simpa [writtenSnapshot, snapshotEntries] using hm
  | cons kv r2 ih =>
    obtain ⟨k2, v2⟩ := kv
    rw [writtenSnapshot_cons] at hm
    cases hv : v2.state with
    | none =>
      rw [hv] at hm
      exact List.mem_cons.mpr (Or.inr (ih hm))
    | some s =>
      rw [hv] at hm
      rcases List.mem_cons.mp hm with he | hm2
      · exact List.mem_cons.mpr (Or.inl he)
      · exact List.mem_cons.mpr (Or.inr (ih hm2))

theorem getKey_loadRooms_eq_none (entries : List (String × Json)) (k : String) :
    getKey (loadRooms entries) k = none ↔ k ∉ entries.map Prod.fst := by
  induction entries with
  | nil => simp [loadRooms, getKey]
  | cons e rest ih =>
    obtain ⟨k2, s2⟩ := e
    simp only [loadRooms, List.map_cons, getKey] at ih ⊢
    by_cases hk : k2 = k
    · simp [hk]
    · simp only [if_neg hk, ih, List.mem_cons, not_or]
      constructor
      · exact fun hh => ⟨fun he => hk he.symm, hh⟩
      · exact fun hh => hh.2

/-- Survival of a defined state through write-then-load, shared by the
round-trip and omission results below. -/
theorem lookup_after_reload_of_set
    (rooms : Rooms) (k : String) (room : Room) (s : Json)
    (h : getKey rooms k = some room) (hs : room.state = some s) :
    getKey (loadRooms (writtenSnapshot rooms)) k
      = some { state := some s, clients := [] } := by
  induction rooms with
  | nil => exact absurd h (by simp [getKey])
  | cons kv rest ih =>
    obtain ⟨k2, v2⟩ := kv
    rw [writtenSnapshot_cons]
    by_cases hk : k2 = k
    · have hv2 : v2 = room := by
        have h2 := h
        simp only [getKey, if_pos hk] at h2
        exact Option.some.inj h2
      rw [hv2, hs]
      simp [loadRooms, getKey, hk]
    · have h2 : getKey rest k = some room := by
        have h3 := h
        simp only [getKey, if_neg hk] at h3
        exact h3
      cases hv : v2.state with
      | none => exact ih h2
      | some s2 =>
        simp only [loadRooms, List.map_cons, getKey, if_neg hk]
        exact ih h2

theorem not_mem_writtenSnapshot_of_unset
    (rooms : Rooms) (k : String) (room : Room)
    (hnd : (rooms.map Prod.fst).Nodup)
    (h : getKey rooms k = some room) (hs : room.state = none) :
    k ∉ (writtenSnapshot rooms).map Prod.fst := by
  induction rooms with
  | nil => exact absurd h (by simp [getKey])
  | cons kv rest ih =>
    obtain ⟨k2, v2⟩ := kv
    rw [writtenSnapshot_cons]
    simp only [List.map_cons, List.nodup_cons] at hnd
    by_cases hk : k2 = k
    · have hv2 : v2 = room := by
        have h2 := h
        simp only [getKey, if_pos hk] at h2
        exact Option.some.inj h2
      rw [hv2, hs]
      intro hmem
      exact hnd.1 (hk ▸ mem_keys_writtenSnapshot rest k hmem)
    · have h2 : getKey rest k = some room := by
        have h3 := h
        simp only [getKey, if_neg hk] at h3
        exact h3
      cases hv : v2.state with
      | none => exact ih hnd.2 h2
      | some s2 =>
        intro hmem
        rcases List.mem_cons.mp hmem with he | hm
        · exact hk he.symm
        · exact ih hnd.2 h2 hm

theorem mem_writtenSnapshot_of_set
    (rooms : Rooms) (k : String) (room : Room) (s : Json)
    (h : getKey rooms k = some room) (hs : room.state = some s) :
    k ∈ (writtenSnapshot rooms).map Prod.fst := by
  induction rooms with
  | nil => exact absurd h (by simp [getKey])
  | cons kv rest ih =>
    obtain ⟨k2, v2⟩ := kv
    rw [writtenSnapshot_cons]
    by_cases hk : k2 = k
    · have hv2 : v2 = room := by
        have h2 := h
        simp only [getKey, if_pos hk] at h2
        exact Option.some.inj h2
      rw [hv2, hs]
      exact List.mem_cons.mpr (Or.inl hk.symm)
    · have h2 : getKey rest k = some room := by
        have h3 := h
        simp only [getKey, if_neg hk] at h3
        exact h3
      cases hv : v2.state with
      | none => exact ih h2
      | some s2 => exact List.mem_cons.mpr (Or.inr (ih h2))

/-- C2 (amended): after a snapshot write followed by a fresh load with
no intervening updates, every room whose state is a defined JSON value
still exists, with its state unchanged and its member list empty; rooms
whose state is unset are dropped by the write and do not survive (see
the counterexample and C10). -/
theorem snapshot_roundtrip_defined_state
    (rooms : Rooms) (k : String) (room : Room) (s : Json)
    (h : getKey rooms k = some room) (hs : room.state = some s) :
    getKey (loadRooms (writtenSnapshot rooms)) k
      = some { state := some s, clients := [] } :=
  lookup_after_reload_of_set rooms k room s h hs

/-- Counterexample for C2 as stated: room `"r"` exists before the
snapshot write (with unset state), but after the write and a fresh load
it does not exist — `JSON.stringify` drops the `undefined`-valued
property, so the round trip is NOT the identity on room ids. -/
theorem snapshot_roundtrip_drops_unset_cex :
    getKey [("r", { state := none, clients := [] })] "r"
      = some { state := none, clients := [] }
    ∧ getKey (loadRooms (writtenSnapshot [("r", { state := none, clients := [] })])) "r"
        = none :=
  ⟨rfl, rfl⟩

/-- Witness for the amended C2 at a concrete input: room `"r"` with
state `3` and a member survives the write/load cycle with the same
state and an empty member list. -/
theorem snapshot_roundtrip_defined_state_witness :
    getKey (loadRooms (writtenSnapshot [("r", { state := some (Json.num 3), clients := [7] })])) "r"
      = some { state := some (Json.num 3), clients := [] } :=
  snapshot_roundtrip_defined_state [("r", { state := some (Json.num 3), clients := [7] })]
    "r" { state := some (Json.num 3), clients := [7] } (Json.num 3) rfl rfl

/-- C10: the snapshot write omits every room whose state is unset
(`JSON.stringify` drops `undefined`-valued properties), so such a room
does not exist after a restart load; every room whose state is a decoded
JSON value is written and survives with state unchanged and no
members. -/
theorem snapshot_omits_unset_state_rooms
    (rooms : Rooms) (k : String) (room : Room)
    (hnd : (rooms.map Prod.fst).Nodup)
    (h : getKey rooms k = some room) :
    (room.state = none →
       k ∉ (writtenSnapshot rooms).map Prod.fst
       ∧ getKey (loadRooms (writtenSnapshot rooms)) k = none)
    ∧ ∀ s, room.state = some s →
       k ∈ (writtenSnapshot rooms).map Prod.fst
       ∧ getKey (loadRooms (writtenSnapshot rooms)) k
           = some { state := some s, clients := [] } := by
  constructor
  · intro hs
    have hm := not_mem_writtenSnapshot_of_unset rooms k room hnd h hs
    exact ⟨hm, (getKey_loadRooms_eq_none _ _).mpr hm⟩
  · intro s hs
    exact ⟨mem_writtenSnapshot_of_set rooms k room s h hs,
      lookup_after_reload_of_set rooms k room s h hs⟩

/-- Witness for C10 at a concrete input: registry with room `"a"`
(state unset) and room `"b"` (state `1`); room `"a"` is omitted from the
written mapping and absent after the load. -/
theorem snapshot_omits_unset_state_rooms_witness :
    ((Room.mk none []).state = none →
       "a" ∉ (writtenSnapshot
           [("a", Room.mk none []), ("b", Room.mk (some (Json.num 1)) [])]).map Prod.fst
       ∧ getKey (loadRooms (writtenSnapshot
           [("a", Room.mk none []), ("b", Room.mk (some (Json.num 1)) [])])) "a" = none)
    ∧ ∀ s, (Room.mk none []).state = some s →
       "a" ∈ (writtenSnapshot
           [("a", Room.mk none []), ("b", Room.mk (some (Json.num 1)) [])]).map Prod.fst
       ∧ getKey (loadRooms (writtenSnapshot
           [("a", Room.mk none []), ("b", Room.mk (some (Json.num 1)) [])])) "a"
           = some { state := some s, clients := [] } :=
  snapshot_omits_unset_state_rooms
    [("a", Room.mk none []), ("b", Room.mk (some (Json.num 1)) [])] "a"
    (Room.mk none []) (by decide) rfl
